import Mathlib

/-!
Shallow embedding of the intelligent-case-routing service (`src/main.py`).

Text is modelled as `List Char`; Python substring operator `in` becomes
`containsSub`; Python float arithmetic on the scores is modelled with `ℚ`
(all score values have denominators 6 or 7 and differences far above any
double rounding error, so the rational model is exact); `round(x, 2)` is
`round2`. The wall-clock timestamp used for `case_id` generation is passed
in explicitly as the parameter `now`.
-/

namespace CaseRouting

/-- Boolean list-prefix test (`needle` is a prefix of the second list). -/
def isPrefixList : List Char → List Char → Bool
  | [], _ => true
  | _ :: _, [] => false
  | a :: as, b :: bs => a == b && isPrefixList as bs

/-- Python substring operator `needle in hay` on lowercase text. -/
def containsSub (needle : List Char) : List Char → Bool
  | [] => isPrefixList needle []
  | b :: bs => isPrefixList needle (b :: bs) || containsSub needle bs

/-- `CaseData` (src/main.py lines 17-21): request body for `/analyze-case`. -/
structure CaseData where
  subject : List Char
  description : List Char
  priority : List Char
  customer_type : List Char

/-- `CaseAnalysis` (src/main.py lines 26-35), without the optional
Salesforce extras that `classify_case` itself never sets. -/
structure CaseAnalysis where
  case_id : List Char
  predicted_category : String
  confidence_score : ℚ
  recommended_queue : String
  priority_level : List Char
  estimated_resolution_time : String
  suggested_actions : List String

/-- `self.category_keywords` (src/main.py lines 44-51), in declaration order. -/
def category_keywords : List (String × List String) :=
  [("payroll", ["payroll", "salary", "wages", "tax withholding", "w2", "1099", "paycheck"]),
   ("banking", ["bank", "deposit", "withdrawal", "account", "routing", "transfer", "ach"]),
   ("fraud", ["fraud", "unauthorized", "suspicious", "dispute", "chargeback", "stolen"]),
   ("technical", ["app", "login", "password", "error", "bug", "crash", "sync"]),
   ("billing", ["bill", "charge", "fee", "payment", "invoice", "refund", "subscription"]),
   ("compliance", ["compliance", "audit", "regulation", "kyc", "aml", "verification"])]

/-- `self.queue_mapping` (src/main.py lines 53-60). -/
def queue_mapping : List (String × String) :=
  [("payroll", "Payroll Support Team"),
   ("banking", "Banking Operations"),
   ("fraud", "Fraud Investigation"),
   ("technical", "Technical Support"),
   ("billing", "Billing Department"),
   ("compliance", "Compliance Team")]

/-- `self.priority_keywords` (src/main.py lines 62-66), in declaration order. -/
def priority_keywords : List (String × List String) :=
  [("high", ["urgent", "critical", "emergency", "fraud", "security", "breach"]),
   ("medium", ["issue", "problem", "help", "support"]),
   ("low", ["question", "inquiry", "information", "how to"])]

/-- `self.queue_mapping.get(cat, "General Support")` (src/main.py line 85). -/
def queueFor (cat : String) : String :=
  (((queue_mapping.find? (fun q => q.1 == cat)).map (fun q => q.2)).getD "General Support")

/-- `f"{subject} {description}".lower()` (src/main.py line 69). -/
def normText (cd : CaseData) : List Char :=
  (cd.subject ++ ' ' :: cd.description).map Char.toLower

/-- `sum(1 for keyword in keywords if keyword in text)` (src/main.py line 74). -/
def countHits (keywords : List String) (text : List Char) : ℕ :=
  (keywords.filter (fun k => containsSub k.toList text)).length

/-- `score / len(keywords)` (src/main.py line 76). -/
def rawScore (ck : String × List String) (text : List Char) : ℚ :=
  (countHits ck.2 text : ℚ) / (ck.2.length : ℚ)

/-- One iteration of the scoring loop body (src/main.py lines 73-76): a
category enters `category_scores` only when its hit count is positive. -/
def scoreEntry (text : List Char) (ck : String × List String) : Option (String × ℚ) :=
  if 0 < countHits ck.2 text then some (ck.1, rawScore ck text) else none

/-- The `category_scores` dict (src/main.py lines 72-76), as an ordered
association list (Python dicts preserve insertion order). -/
def categoryScores (text : List Char) : List (String × ℚ) :=
  category_keywords.filterMap (scoreEntry text)

/-- `max(category_scores, key=category_scores.get)` (src/main.py line 83):
Python `max` keeps the earliest element on ties, replacing the running
best only on a strictly greater key. -/
def pickMax (c : String × ℚ) (rest : List (String × ℚ)) : String × ℚ :=
  rest.foldl (fun best y => if best.2 < y.2 then y else best) c

/-- Lines 78-85 of src/main.py: predicted category, raw (pre-rounding)
confidence, and recommended queue. -/
def pickCategory (text : List Char) : String × ℚ × String :=
  match categoryScores text with
  | [] => ("general", 1/2, "General Support")
  | c :: rest =>
      let m := pickMax c rest
      (m.1, min (m.2 * 2) 1, queueFor m.1)

/-- The priority loop (src/main.py lines 88-92): first priority rule with a
matching keyword wins, otherwise the lowercased hint survives. -/
def resolvePriority (hint : List Char) (text : List Char) : List Char :=
  match priority_keywords.find? (fun pk => pk.2.any (fun kw => containsSub kw.toList text)) with
  | some pk => pk.1.toList
  | none => hint.map Char.toLower

/-- `resolution_times.get(priority_level, "2-3 business days")`
(src/main.py lines 95-99 and 112). -/
def resolutionTime (pl : List Char) : String :=
  if pl = "high".toList then "2-4 hours"
  else if pl = "medium".toList then "1-2 business days"
  else if pl = "low".toList then "3-5 business days"
  else "2-3 business days"

/-- The per-category action playlists (src/main.py lines 117-161) with the
generic default. -/
def actionsFor (category : String) : List String :=
  if category = "payroll" then
    ["Verify employee information", "Check payroll processing status",
     "Review tax withholding settings", "Escalate to payroll specialist if needed"]
  else if category = "banking" then
    ["Verify account details", "Check transaction history",
     "Review banking integration status", "Contact banking partner if required"]
  else if category = "fraud" then
    ["Immediately flag account for review", "Document all suspicious activity",
     "Escalate to fraud investigation team", "Implement temporary security measures"]
  else if category = "technical" then
    ["Gather system logs and error details", "Check for known issues",
     "Test reproduction steps", "Escalate to engineering if needed"]
  else if category = "billing" then
    ["Review billing history", "Check payment processing status",
     "Verify subscription details", "Process refund if applicable"]
  else if category = "compliance" then
    ["Review compliance requirements", "Gather necessary documentation",
     "Escalate to compliance team", "Ensure regulatory adherence"]
  else
    ["Review case details thoroughly", "Gather additional information if needed",
     "Follow standard resolution procedures", "Escalate if resolution exceeds timeframe"]

/-- `_get_suggested_actions` (src/main.py lines 116-166): the playlist for
the category, with the urgent banner inserted at the front when the
resolved priority is "high". -/
def suggestedActions (category : String) (pl : List Char) : List String :=
  let base := actionsFor category
  if pl = "high".toList then "URGENT: Prioritize immediate attention" :: base else base

/-- Python `str.title()` (src/main.py line 111) restricted to its ASCII
behavior: an alphabetic character is uppercased after a non-alphabetic
character (or at the start) and lowercased otherwise. -/
def titleAux : Bool → List Char → List Char
  | _, [] => []
  | prevCased, c :: rest =>
      (if c.isAlpha then (if prevCased then c.toLower else c.toUpper) else c)
        :: titleAux c.isAlpha rest

/-- `s.title()` on a whole string. -/
def title (s : List Char) : List Char := titleAux false s

/-- Python `round(x, 2)` for the values reachable here: every reachable
confidence has denominator 6 or 7 scaled by 100, which never lands on an
exact half, so round-half-even, round-half-up and correctly rounded double
arithmetic all agree with plain rational rounding. -/
def round2 (q : ℚ) : ℚ := (round (q * 100) : ℚ) / 100

/-- `CaseClassifier.classify_case` (src/main.py lines 68-114). The
timestamp string `now` stands for `datetime.now().strftime(...)`. -/
def classify_case (cd : CaseData) (now : List Char) : CaseAnalysis :=
  let text := normText cd
  let pc := pickCategory text
  let priority_level := resolvePriority cd.priority text
  { case_id := "CASE-".toList ++ now
    predicted_category := pc.1
    confidence_score := round2 pc.2.1
    recommended_queue := pc.2.2
    priority_level := title priority_level
    estimated_resolution_time := resolutionTime priority_level
    suggested_actions := suggestedActions pc.1 priority_level }


/-- Claim C3: with empty subject and description the classifier routes to
the general fallback with confidence 0.50 and queue General Support,
whatever the priority hint, customer type and timestamp are. -/
theorem claim_C3 (p ct now : List Char) :
    (classify_case ⟨[], [], p, ct⟩ now).predicted_category = "general" ∧
    (classify_case ⟨[], [], p, ct⟩ now).confidence_score = 0.5 ∧
    (classify_case ⟨[], [], p, ct⟩ now).recommended_queue = "General Support" := by
  refine ⟨rfl, ?_, rfl⟩
  show round2 (1/2) = 0.5
  norm_num [round2, round_eq]

/-- Claim C7: two calls to `classify_case` on the same `CaseData` agree on
every field except the timestamp-generated `case_id`. -/
theorem claim_C7 (cd : CaseData) (t1 t2 : List Char) :
    (classify_case cd t1).predicted_category = (classify_case cd t2).predicted_category ∧
    (classify_case cd t1).confidence_score = (classify_case cd t2).confidence_score ∧
    (classify_case cd t1).recommended_queue = (classify_case cd t2).recommended_queue ∧
    (classify_case cd t1).priority_level = (classify_case cd t2).priority_level ∧
    (classify_case cd t1).estimated_resolution_time
      = (classify_case cd t2).estimated_resolution_time ∧
    (classify_case cd t1).suggested_actions = (classify_case cd t2).suggested_actions :=
  ⟨rfl, rfl, rfl, rfl, rfl, rfl⟩

/-- Claim C9: `customer_type` has no influence on any output field other
than the timestamp-generated `case_id`. -/
theorem claim_C9 (s d p ct1 ct2 t1 t2 : List Char) :
    (classify_case ⟨s, d, p, ct1⟩ t1).predicted_category
      = (classify_case ⟨s, d, p, ct2⟩ t2).predicted_category ∧
    (classify_case ⟨s, d, p, ct1⟩ t1).confidence_score
      = (classify_case ⟨s, d, p, ct2⟩ t2).confidence_score ∧
    (classify_case ⟨s, d, p, ct1⟩ t1).recommended_queue
      = (classify_case ⟨s, d, p, ct2⟩ t2).recommended_queue ∧
    (classify_case ⟨s, d, p, ct1⟩ t1).priority_level
      = (classify_case ⟨s, d, p, ct2⟩ t2).priority_level ∧
    (classify_case ⟨s, d, p, ct1⟩ t1).estimated_resolution_time
      = (classify_case ⟨s, d, p, ct2⟩ t2).estimated_resolution_time ∧
    (classify_case ⟨s, d, p, ct1⟩ t1).suggested_actions
      = (classify_case ⟨s, d, p, ct2⟩ t2).suggested_actions :=
  ⟨rfl, rfl, rfl, rfl, rfl, rfl⟩

/-- Whether any trigger of a rule occurs as a substring of the text. -/
def anyKeywordIn (kws : List String) (text : List Char) : Bool :=
  kws.any (fun kw => containsSub kw.toList text)

/-- The priority scan (src/main.py lines 89-92) resolved rule by rule:
high is consulted first, then medium, then low. -/
theorem find_priority_rule (text : List Char) :
    priority_keywords.find? (fun pk => pk.2.any (fun kw => containsSub kw.toList text)) =
      (if anyKeywordIn ["urgent", "critical", "emergency", "fraud", "security", "breach"] text
        then some ("high", ["urgent", "critical", "emergency", "fraud", "security", "breach"])
       else if anyKeywordIn ["issue", "problem", "help", "support"] text
        then some ("medium", ["issue", "problem", "help", "support"])
       else if anyKeywordIn ["question", "inquiry", "information", "how to"] text
        then some ("low", ["question", "inquiry", "information", "how to"])
       else none) := by
  unfold priority_keywords
  by_cases h1 : anyKeywordIn ["urgent", "critical", "emergency", "fraud", "security", "breach"]
      text = true
  · rw [@List.find?_cons_of_pos _ (fun pk => pk.2.any fun kw => containsSub kw.toList text)
        ("high", ["urgent", "critical", "emergency", "fraud", "security", "breach"])
        [("medium", ["issue", "problem", "help", "support"]),
         ("low", ["question", "inquiry", "information", "how to"])] h1, if_pos h1]
  · rw [@List.find?_cons_of_neg _ (fun pk => pk.2.any fun kw => containsSub kw.toList text)
        ("high", ["urgent", "critical", "emergency", "fraud", "security", "breach"])
        [("medium", ["issue", "problem", "help", "support"]),
         ("low", ["question", "inquiry", "information", "how to"])] h1, if_neg h1]
    by_cases h2 : anyKeywordIn ["issue", "problem", "help", "support"] text = true
    · rw [@List.find?_cons_of_pos _ (fun pk => pk.2.any fun kw => containsSub kw.toList text)
          ("medium", ["issue", "problem", "help", "support"])
          [("low", ["question", "inquiry", "information", "how to"])] h2, if_pos h2]
    · rw [@List.find?_cons_of_neg _ (fun pk => pk.2.any fun kw => containsSub kw.toList text)
          ("medium", ["issue", "problem", "help", "support"])
          [("low", ["question", "inquiry", "information", "how to"])] h2, if_neg h2]
      by_cases h3 : anyKeywordIn ["question", "inquiry", "information", "how to"] text = true
      · rw [@List.find?_cons_of_pos _ (fun pk => pk.2.any fun kw => containsSub kw.toList text)
            ("low", ["question", "inquiry", "information", "how to"]) [] h3, if_pos h3]
      · rw [@List.find?_cons_of_neg _ (fun pk => pk.2.any fun kw => containsSub kw.toList text)
            ("low", ["question", "inquiry", "information", "how to"]) [] h3, if_neg h3,
          List.find?_nil]

/-- Claim C2: the priority rules are scanned in the fixed order high,
medium, low over the normalized text; the first rule with a matching
substring overrides the caller hint entirely, and with no match the hint
is used, lowercased and then re-capitalized to Title Case. -/
theorem claim_C2 (cd : CaseData) (now : List Char) :
    (classify_case cd now).priority_level =
      (if anyKeywordIn ["urgent", "critical", "emergency", "fraud", "security", "breach"]
          (normText cd) then "High".toList
       else if anyKeywordIn ["issue", "problem", "help", "support"] (normText cd)
        then "Medium".toList
       else if anyKeywordIn ["question", "inquiry", "information", "how to"] (normText cd)
        then "Low".toList
       else title (cd.priority.map Char.toLower)) := by
  show title (resolvePriority cd.priority (normText cd)) = _
  unfold resolvePriority
  rw [find_priority_rule (normText cd)]
  by_cases h1 : anyKeywordIn ["urgent", "critical", "emergency", "fraud", "security", "breach"]
      (normText cd) = true
  · rw [if_pos h1, if_pos h1]; rfl
  · rw [if_neg h1, if_neg h1]
    by_cases h2 : anyKeywordIn ["issue", "problem", "help", "support"] (normText cd) = true
    · rw [if_pos h2, if_pos h2]; rfl
    · rw [if_neg h2, if_neg h2]
      by_cases h3 : anyKeywordIn ["question", "inquiry", "information", "how to"]
          (normText cd) = true
      · rw [if_pos h3, if_pos h3]; rfl
      · rw [if_neg h3, if_neg h3]

/-- Claim C4: whenever the normalized text contains the substring urgent,
the resolved priority level is High and the first suggested action is the
urgent banner, for every caller-supplied priority hint. -/
theorem claim_C4 (cd : CaseData) (now : List Char)
    (h : containsSub "urgent".toList (normText cd) = true) :
    (classify_case cd now).priority_level = "High".toList ∧
    (classify_case cd now).suggested_actions[0]? =
      some "URGENT: Prioritize immediate attention" := by
  have hhi : anyKeywordIn ["urgent", "critical", "emergency", "fraud", "security", "breach"]
      (normText cd) = true := by
    unfold anyKeywordIn
    simp only [List.any_cons]
    rw [h]
    rfl
  have hfind : resolvePriority cd.priority (normText cd) = "high".toList := by
    unfold resolvePriority
    rw [find_priority_rule (normText cd), if_pos hhi]
  constructor
  · show title (resolvePriority cd.priority (normText cd)) = _
    rw [hfind]; rfl
  · show (suggestedActions (pickCategory (normText cd)).1
      (resolvePriority cd.priority (normText cd)))[0]? = _
    rw [hfind]
    simp [suggestedActions]

/-- Claim C4 witness at the concrete input with subject "urgent", empty
description and hint "Low". -/
theorem claim_C4_witness :
    containsSub "urgent".toList
        (normText ⟨"urgent".toList, [], "Low".toList, "Individual".toList⟩) = true ∧
    (classify_case ⟨"urgent".toList, [], "Low".toList, "Individual".toList⟩
        "20250101000000".toList).priority_level = "High".toList ∧
    (classify_case ⟨"urgent".toList, [], "Low".toList, "Individual".toList⟩
        "20250101000000".toList).suggested_actions[0]? =
      some "URGENT: Prioritize immediate attention" :=
  ⟨by decide,
   claim_C4 ⟨"urgent".toList, [], "Low".toList, "Individual".toList⟩
     "20250101000000".toList (by decide)⟩

/-- Claim C10: whenever the normalized text contains the substring fraud,
the resolved priority level is High for every caller-supplied hint, since
fraud sits in the high-priority trigger list scanned first. -/
theorem claim_C10 (cd : CaseData) (now : List Char)
    (h : containsSub "fraud".toList (normText cd) = true) :
    (classify_case cd now).priority_level = "High".toList := by
  have hhi : anyKeywordIn ["urgent", "critical", "emergency", "fraud", "security", "breach"]
      (normText cd) = true := by
    unfold anyKeywordIn
    simp only [List.any_cons]
    rw [h]
    simp
  have hfind : resolvePriority cd.priority (normText cd) = "high".toList := by
    unfold resolvePriority
    rw [find_priority_rule (normText cd), if_pos hhi]
  show title (resolvePriority cd.priority (normText cd)) = _
  rw [hfind]; rfl

/-- Claim C10 witness at the concrete input with subject "fraud report"
and hint "Low". -/
theorem claim_C10_witness :
    containsSub "fraud".toList
        (normText ⟨"fraud report".toList, [], "Low".toList, "Individual".toList⟩) = true ∧
    (classify_case ⟨"fraud report".toList, [], "Low".toList, "Individual".toList⟩
        "20250101000000".toList).priority_level = "High".toList :=
  ⟨by decide,
   claim_C10 ⟨"fraud report".toList, [], "Low".toList, "Individual".toList⟩
     "20250101000000".toList (by decide)⟩

theorem countHits_le_length (kws : List String) (text : List Char) :
    countHits kws text ≤ kws.length :=
  List.length_filter_le _ _

theorem pickMax_cons (c y : String × ℚ) (t : List (String × ℚ)) :
    pickMax c (y :: t) = pickMax (if c.2 < y.2 then y else c) t := rfl

theorem pickMax_mem : ∀ (rest : List (String × ℚ)) (c : String × ℚ),
    pickMax c rest = c ∨ pickMax c rest ∈ rest := by
  intro rest
  induction rest with
  | nil => intro c; exact Or.inl rfl
  | cons y t ih =>
      intro c
      rw [pickMax_cons]
      rcases ih (if c.2 < y.2 then y else c) with h | h
      · rw [h]
        by_cases hc : c.2 < y.2
        · rw [if_pos hc]; exact Or.inr (List.mem_cons_self _ _)
        · rw [if_neg hc]; exact Or.inl rfl
      · exact Or.inr (List.mem_cons_of_mem _ h)

theorem mem_categoryScores_bounds (text : List Char) (z : String × ℚ)
    (hz : z ∈ categoryScores text) : 0 < z.2 ∧ z.2 ≤ 1 := by
  obtain ⟨ck, hck, he⟩ := List.mem_filterMap.mp hz
  unfold scoreEntry at he
  by_cases hpos : 0 < countHits ck.2 text
  · rw [if_pos hpos] at he
    obtain rfl := Option.some.inj he
    have hlen : 0 < ck.2.length := lt_of_lt_of_le hpos (countHits_le_length _ _)
    constructor
    · show 0 < rawScore ck text
      unfold rawScore
      exact div_pos (by exact_mod_cast hpos) (by exact_mod_cast hlen)
    · show rawScore ck text ≤ 1
      unfold rawScore
      rw [div_le_one (by exact_mod_cast hlen)]
      exact_mod_cast countHits_le_length _ _
  · rw [if_neg hpos] at he
    cases he

theorem round2_bounds (q : ℚ) (h0 : 0 ≤ q) (h1 : q ≤ 1) :
    0 ≤ round2 q ∧ round2 q ≤ 1 := by
  have l0 : (0 : ℤ) ≤ round (q * 100) := by
    have hmono : round (0 : ℚ) ≤ round (q * 100) := by
      rw [round_eq, round_eq]
      exact Int.floor_mono (by linarith)
    simpa using hmono
  have l1 : round (q * 100) ≤ 100 := by
    have hmono : round (q * 100) ≤ round ((100 : ℚ)) := by
      rw [round_eq, round_eq]
      exact Int.floor_mono (by linarith)
    have h100 : round ((100 : ℚ)) = 100 := by
      have hc := @round_intCast ℚ _ _ 100
      exact_mod_cast hc
    rw [h100] at hmono
    exact hmono
  unfold round2
  constructor
  · apply div_nonneg _ (by norm_num)
    exact_mod_cast l0
  · rw [div_le_one (by norm_num)]
    exact_mod_cast l1

/-- Claim C8: the confidence score of every classification result lies in
the closed interval from 0 to 1. -/
theorem claim_C8 (cd : CaseData) (now : List Char) :
    0 ≤ (classify_case cd now).confidence_score ∧
    (classify_case cd now).confidence_score ≤ 1 := by
  show 0 ≤ round2 (pickCategory (normText cd)).2.1 ∧
    round2 (pickCategory (normText cd)).2.1 ≤ 1
  have key : 0 ≤ (pickCategory (normText cd)).2.1 ∧ (pickCategory (normText cd)).2.1 ≤ 1 := by
    unfold pickCategory
    cases hs : categoryScores (normText cd) with
    | nil => constructor <;> norm_num
    | cons c rest =>
        have hmem : pickMax c rest ∈ categoryScores (normText cd) := by
          rw [hs]
          rcases pickMax_mem rest c with h | h
          · rw [h]; exact List.mem_cons_self _ _
          · exact List.mem_cons_of_mem _ h
        have hb := mem_categoryScores_bounds _ _ hmem
        constructor
        · exact le_min (by linarith [hb.1]) (by norm_num)
        · exact min_le_right _ _
  exact round2_bounds _ key.1 key.2

theorem filterMap_single {α β : Type} (f : α → Option β) :
    ∀ (l : List α) (a : α) (b : β), a ∈ l → l.Nodup → f a = some b →
      (∀ x ∈ l, x ≠ a → f x = none) → l.filterMap f = [b] := by
  intro l
  induction l with
  | nil => intro a b hmem _ _ _; cases hmem
  | cons x t ih =>
      intro a b hmem hnd ha hother
      by_cases hx : x = a
      · subst hx
        rw [List.filterMap_cons_some ha]
        have htail : t.filterMap f = [] := by
          rw [List.filterMap_eq_nil_iff]
          intro y hy
          have hya : y ≠ x := by
            intro hcontra
            subst hcontra
            exact (List.nodup_cons.mp hnd).1 hy
          exact hother y (List.mem_cons_of_mem _ hy) hya
        rw [htail]
      · rw [List.filterMap_cons_none (hother x (List.mem_cons_self _ _) hx)]
        have hmem2 : a ∈ t := by
          rcases List.mem_cons.mp hmem with h | h
          · exact absurd h.symm hx
          · exact h
        exact ih a b hmem2 (List.nodup_cons.mp hnd).2 ha
          (fun y hy hne => hother y (List.mem_cons_of_mem _ hy) hne)

theorem pickCategory_single (text : List Char) (n : String) (s : ℚ)
    (h : categoryScores text = [(n, s)]) :
    pickCategory text = (n, min (s * 2) 1, queueFor n) := by
  unfold pickCategory
  rw [h]
  rfl

/-- Claim C5: when the normalized text contains exactly one trigger of a
category with K triggers in total and no trigger of any other category,
the confidence score is round(min(2/K, 1), 2). -/
theorem claim_C5 (cd : CaseData) (now : List Char) (ck : String × List String)
    (hmem : ck ∈ category_keywords)
    (hone : countHits ck.2 (normText cd) = 1)
    (hother : ∀ ck2 ∈ category_keywords, ck2 ≠ ck → countHits ck2.2 (normText cd) = 0) :
    (classify_case cd now).confidence_score = round2 (min (2 / (ck.2.length : ℚ)) 1) := by
  have hnd : category_keywords.Nodup := by decide
  have hsome : scoreEntry (normText cd) ck = some (ck.1, rawScore ck (normText cd)) := by
    unfold scoreEntry
    rw [if_pos (by rw [hone]; norm_num)]
  have hnone : ∀ x ∈ category_keywords, x ≠ ck → scoreEntry (normText cd) x = none := by
    intro x hx hne
    unfold scoreEntry
    rw [if_neg (by rw [hother x hx hne]; norm_num)]
  have hcs : categoryScores (normText cd) = [(ck.1, rawScore ck (normText cd))] :=
    filterMap_single _ _ _ _ hmem hnd hsome hnone
  show round2 (pickCategory (normText cd)).2.1 = _
  rw [pickCategory_single _ _ _ hcs]
  have hsc : rawScore ck (normText cd) * 2 = 2 / (ck.2.length : ℚ) := by
    unfold rawScore
    rw [hone]
    push_cast
    ring
  show round2 (min (rawScore ck (normText cd) * 2) 1) = _
  rw [hsc]

/-- Claim C5 witness: subject "w2" hits exactly the payroll rule, whose
trigger list has 7 entries, and the confidence is round(min(2/7, 1), 2). -/
theorem claim_C5_witness :
    (("payroll", ["payroll", "salary", "wages", "tax withholding", "w2", "1099", "paycheck"])
      : String × List String) ∈ category_keywords ∧
    countHits ["payroll", "salary", "wages", "tax withholding", "w2", "1099", "paycheck"]
      (normText ⟨"w2".toList, [], "Medium".toList, "Individual".toList⟩) = 1 ∧
    (∀ ck2 ∈ category_keywords,
      ck2 ≠ (("payroll", ["payroll", "salary", "wages", "tax withholding", "w2", "1099",
        "paycheck"]) : String × List String) →
      countHits ck2.2 (normText ⟨"w2".toList, [], "Medium".toList, "Individual".toList⟩) = 0) ∧
    (classify_case ⟨"w2".toList, [], "Medium".toList, "Individual".toList⟩
        "20250101000000".toList).confidence_score = round2 (min (2 / ((7 : ℕ) : ℚ)) 1) :=
  ⟨by decide, by decide, by decide,
   claim_C5 ⟨"w2".toList, [], "Medium".toList, "Individual".toList⟩ "20250101000000".toList
     ("payroll", ["payroll", "salary", "wages", "tax withholding", "w2", "1099", "paycheck"])
     (by decide) (by decide) (by decide)⟩

/-- Spec-side candidacy: a category is a candidate exactly when at least
one of its triggers occurs in the text (zero hits are excluded). -/
def isCandidate (ck : String × List String) (text : List Char) : Bool :=
  decide (0 < countHits ck.2 text)

/-- Spec-side winning condition: a candidate whose raw score is at least
the raw score of every candidate. -/
def specIsBest (text : List Char) (ck : String × List String) : Bool :=
  isCandidate ck text &&
    category_keywords.all
      (fun ck2 => !(isCandidate ck2 text) || decide (rawScore ck2 text ≤ rawScore ck text))

/-- Spec-side selection: the first category in declaration order (payroll,
banking, fraud, technical, billing, compliance) that is a candidate with a
maximal raw score; on an exact tie the earlier-declared category is found
first. -/
def specBestCategory (text : List Char) : Option (String × List String) :=
  category_keywords.find? (specIsBest text)

theorem specIsBest_true_iff (text : List Char) (ck : String × List String) :
    specIsBest text ck = true ↔
      (0 < countHits ck.2 text ∧ ∀ ck2 ∈ category_keywords,
        0 < countHits ck2.2 text → rawScore ck2 text ≤ rawScore ck text) := by
  unfold specIsBest isCandidate
  simp only [Bool.and_eq_true, decide_eq_true_eq, List.all_eq_true, Bool.or_eq_true,
    Bool.not_eq_true', decide_eq_false_iff_not]
  constructor
  · rintro ⟨h1, h2⟩
    refine ⟨h1, fun ck2 hm hpos => ?_⟩
    rcases h2 ck2 hm with h | h
    · exact absurd hpos h
    · exact h
  · rintro ⟨h1, h2⟩
    refine ⟨h1, fun ck2 hm => ?_⟩
    by_cases hpos : 0 < countHits ck2.2 text
    · exact Or.inr (h2 ck2 hm hpos)
    · exact Or.inl hpos

theorem pickMax_first_max : ∀ (rest : List (String × ℚ)) (c : String × ℚ),
    (pickMax c rest = c ∧ ∀ y ∈ rest, y.2 ≤ c.2) ∨
    (∃ l1 l2, rest = l1 ++ pickMax c rest :: l2 ∧ c.2 < (pickMax c rest).2 ∧
      (∀ z ∈ l1, z.2 < (pickMax c rest).2) ∧ (∀ z ∈ l2, z.2 ≤ (pickMax c rest).2)) := by
  intro rest
  induction rest with
  | nil =>
      intro c
      exact Or.inl ⟨rfl, fun y hy => absurd hy (List.not_mem_nil y)⟩
  | cons y t ih =>
      intro c
      rw [pickMax_cons]
      by_cases hc : c.2 < y.2
      · rw [if_pos hc]
        rcases ih y with ⟨heq, hall⟩ | ⟨l1, l2, hsplit, hlt, h1, h2⟩
        · refine Or.inr ⟨[], t, ?_, ?_, ?_, ?_⟩
          · rw [heq, List.nil_append]
          · rw [heq]; exact hc
          · intro z hz; cases hz
          · intro z hz; rw [heq]; exact hall z hz
        · refine Or.inr ⟨y :: l1, l2, ?_, lt_trans hc hlt, ?_, h2⟩
          · rw [List.cons_append, ← hsplit]
          · intro z hz
            rcases List.mem_cons.mp hz with rfl | hz2
            · exact hlt
            · exact h1 z hz2
      · rw [if_neg hc]
        rcases ih c with ⟨heq, hall⟩ | ⟨l1, l2, hsplit, hlt, h1, h2⟩
        · refine Or.inl ⟨heq, fun z hz => ?_⟩
          rcases List.mem_cons.mp hz with rfl | hz2
          · exact le_of_not_lt hc
          · exact hall z hz2
        · refine Or.inr ⟨y :: l1, l2, ?_, hlt, ?_, h2⟩
          · rw [List.cons_append, ← hsplit]
          · intro z hz
            rcases List.mem_cons.mp hz with rfl | hz2
            · exact lt_of_le_of_lt (le_of_not_lt hc) hlt
            · exact h1 z hz2

theorem pickMax_decomp (c : String × ℚ) (rest : List (String × ℚ)) :
    ∃ l1 l2, c :: rest = l1 ++ pickMax c rest :: l2 ∧
      (∀ z ∈ l1, z.2 < (pickMax c rest).2) ∧ (∀ z ∈ l2, z.2 ≤ (pickMax c rest).2) := by
  rcases pickMax_first_max rest c with ⟨heq, hall⟩ | ⟨l1, l2, hsplit, hlt, h1, h2⟩
  · refine ⟨[], rest, by rw [heq, List.nil_append], fun z hz => absurd hz (List.not_mem_nil z),
      fun z hz => ?_⟩
    rw [heq]; exact hall z hz
  · refine ⟨c :: l1, l2, by rw [List.cons_append, ← hsplit], fun z hz => ?_, h2⟩
    rcases List.mem_cons.mp hz with rfl | hz2
    · exact hlt
    · exact h1 z hz2

theorem filterMap_eq_append_cons {α β : Type} (f : α → Option β) :
    ∀ (l : List α) (l1 : List β) (b : β) (l2 : List β),
      l.filterMap f = l1 ++ b :: l2 →
      ∃ k1 a k2, l = k1 ++ a :: k2 ∧ f a = some b ∧
        k1.filterMap f = l1 ∧ k2.filterMap f = l2 := by
  intro l
  induction l with
  | nil =>
      intro l1 b l2 h
      simp at h
  | cons x t ih =>
      intro l1 b l2 h
      cases hx : f x with
      | none =>
          rw [List.filterMap_cons_none hx] at h
          obtain ⟨k1, a, k2, h1, h2, h3, h4⟩ := ih l1 b l2 h
          exact ⟨x :: k1, a, k2, by rw [List.cons_append, h1], h2,
            by rw [List.filterMap_cons_none hx, h3], h4⟩
      | some v =>
          rw [List.filterMap_cons_some hx] at h
          cases l1 with
          | nil =>
              rw [List.nil_append] at h
              injection h with hv ht
              exact ⟨[], x, t, rfl, by rw [hx, hv], rfl, ht⟩
          | cons w l1t =>
              rw [List.cons_append] at h
              injection h with hv ht
              obtain ⟨k1, a, k2, h1, h2, h3, h4⟩ := ih l1t b l2 ht
              exact ⟨x :: k1, a, k2, by rw [List.cons_append, h1], h2,
                by rw [List.filterMap_cons_some hx, h3, hv], h4⟩

theorem find_first_of_prefix_none {α : Type} (p : α → Bool) :
    ∀ (k1 : List α) (a : α) (k2 : List α), (∀ x ∈ k1, ¬ p x = true) → p a = true →
      (k1 ++ a :: k2).find? p = some a := by
  intro k1
  induction k1 with
  | nil =>
      intro a k2 _ hp
      exact List.find?_cons_of_pos _ hp
  | cons y t ih =>
      intro a k2 hall hp
      rw [List.cons_append, List.find?_cons_of_neg _ (hall y (List.mem_cons_self _ _))]
      exact ih a k2 (fun x hx => hall x (List.mem_cons_of_mem _ hx)) hp

theorem scoreEntry_of_pos (text : List Char) (ck : String × List String)
    (h : 0 < countHits ck.2 text) :
    scoreEntry text ck = some (ck.1, rawScore ck text) := by
  unfold scoreEntry
  rw [if_pos h]

theorem scoreEntry_eq_some (text : List Char) (ck : String × List String) (z : String × ℚ)
    (h : scoreEntry text ck = some z) :
    0 < countHits ck.2 text ∧ z = (ck.1, rawScore ck text) := by
  unfold scoreEntry at h
  by_cases hpos : 0 < countHits ck.2 text
  · rw [if_pos hpos] at h
    exact ⟨hpos, (Option.some.inj h).symm⟩
  · rw [if_neg hpos] at h
    cases h

/-- Claim C1: whenever some category has at least one trigger hit, the
predicted category is the first category in declaration order that is a
candidate (positive hit count) with a maximal raw score hits/total among
all candidates; ties go to the earlier-declared category. -/
theorem claim_C1 (cd : CaseData) (now : List Char)
    (hne : ∃ ck ∈ category_keywords, 0 < countHits ck.2 (normText cd)) :
    ∃ ck, specBestCategory (normText cd) = some ck ∧
      (classify_case cd now).predicted_category = ck.1 := by
  obtain ⟨ck0, hck0, hpos0⟩ := hne
  have hmem0 : (ck0.1, rawScore ck0 (normText cd)) ∈ categoryScores (normText cd) :=
    List.mem_filterMap.mpr ⟨ck0, hck0, scoreEntry_of_pos _ _ hpos0⟩
  cases hs : categoryScores (normText cd) with
  | nil =>
      rw [hs] at hmem0
      cases hmem0
  | cons c rest =>
      obtain ⟨l1, l2, hsplit, hlt, hle⟩ := pickMax_decomp c rest
      have hsplit2 : categoryScores (normText cd) = l1 ++ pickMax c rest :: l2 := by
        rw [hs, hsplit]
      obtain ⟨k1, ck, k2, hks, hsome, hk1, hk2⟩ :=
        filterMap_eq_append_cons (scoreEntry (normText cd)) category_keywords l1 _ l2 hsplit2
      obtain ⟨hckpos, hm⟩ := scoreEntry_eq_some _ _ _ hsome
      have hraw : (pickMax c rest).2 = rawScore ck (normText cd) := by rw [hm]
      have hckmem : ck ∈ category_keywords := by
        rw [hks]
        exact List.mem_append_right _ (List.mem_cons_self _ _)
      have hmax : ∀ ck2 ∈ category_keywords, 0 < countHits ck2.2 (normText cd) →
          rawScore ck2 (normText cd) ≤ rawScore ck (normText cd) := by
        intro ck2 hm2 hp2
        have hin : (ck2.1, rawScore ck2 (normText cd)) ∈ categoryScores (normText cd) :=
          List.mem_filterMap.mpr ⟨ck2, hm2, scoreEntry_of_pos _ _ hp2⟩
        rw [hsplit2] at hin
        rcases List.mem_append.mp hin with h | h
        · have h2 := hlt _ h
          rw [hraw] at h2
          exact le_of_lt h2
        · rcases List.mem_cons.mp h with heq | h2
          · have h3 : rawScore ck2 (normText cd) = (pickMax c rest).2 :=
              (congrArg Prod.snd heq).symm ▸ rfl
            rw [hraw] at h3
            exact le_of_eq h3
          · have h3 := hle _ h2
            rw [hraw] at h3
            exact h3
      have hbest : specIsBest (normText cd) ck = true :=
        (specIsBest_true_iff _ _).mpr ⟨hckpos, hmax⟩
      have hprefix : ∀ x ∈ k1, ¬ specIsBest (normText cd) x = true := by
        intro x hx hxbest
        obtain ⟨hxpos, hxmax⟩ := (specIsBest_true_iff _ _).mp hxbest
        have hxin : (x.1, rawScore x (normText cd)) ∈ l1 := by
          rw [← hk1]
          exact List.mem_filterMap.mpr ⟨x, hx, scoreEntry_of_pos _ _ hxpos⟩
        have hxlt : rawScore x (normText cd) < rawScore ck (normText cd) := by
          have h2 := hlt _ hxin
          rw [hraw] at h2
          exact h2
        have hckle : rawScore ck (normText cd) ≤ rawScore x (normText cd) :=
          hxmax ck hckmem hckpos
        exact absurd (lt_of_le_of_lt hckle hxlt) (lt_irrefl _)
      refine ⟨ck, ?_, ?_⟩
      · unfold specBestCategory
        rw [hks]
        exact find_first_of_prefix_none _ k1 ck k2 hprefix hbest
      · show (pickCategory (normText cd)).1 = ck.1
        unfold pickCategory
        rw [hs]
        show (pickMax c rest).1 = ck.1
        rw [hm]

/-- Claim C1 witness at the concrete input with subject "fraud": the fraud
category is the unique candidate and is selected. -/
theorem claim_C1_witness :
    (∃ ck ∈ category_keywords,
      0 < countHits ck.2
        (normText ⟨"fraud".toList, [], "Medium".toList, "Individual".toList⟩)) ∧
    (∃ ck, specBestCategory
        (normText ⟨"fraud".toList, [], "Medium".toList, "Individual".toList⟩) = some ck ∧
      (classify_case ⟨"fraud".toList, [], "Medium".toList, "Individual".toList⟩
        "20250101000000".toList).predicted_category = ck.1) :=
  ⟨by decide,
   claim_C1 ⟨"fraud".toList, [], "Medium".toList, "Individual".toList⟩
     "20250101000000".toList (by decide)⟩

/-- A Salesforce case record as fabricated by `SalesforceIntegration`
(src/main.py lines 214-230, 241-279). The Python `Type` field is called
`typeTag` here because `Type` is reserved in Lean. -/
structure SfCase where
  sfId : String
  caseNumber : String
  subject : List Char
  description : List Char
  priority : List Char
  status : String
  origin : String
  typeTag : String
  createdDate : String

/-- A FastAPI `HTTPException`: status code and detail message. -/
structure HttpError where
  status_code : ℕ
  detail : String

/-- Python `str()` of a FastAPI `HTTPException`, which Starlette renders
as `"{status_code}: {detail}"`; this is what the f-string interpolation
`f"Analysis failed: {e}"` (src/main.py line 329) produces. -/
def httpExceptionStr (e : HttpError) : String :=
  toString e.status_code ++ ": " ++ e.detail

/-- `_get_mock_case` (src/main.py lines 237-281): the two fixture cases;
any other identifier gets a synthesized generic record, so the mock Case
Source never reports that a case does not exist. `nowIso` stands for
`datetime.now().isoformat()`. -/
def get_mock_case (case_number : String) (nowIso : String) : SfCase :=
  if case_number = "00001234" then
    { sfId := "5004W00002ghfgbQAA", caseNumber := "00001234"
      subject := "Payroll tax withholding discrepancy for Q4 2024".toList
      description := ("Employee reports that federal tax withholding on W2 is $2,000 less " ++
        "than expected based on salary of $75,000 and married filing jointly status. Need " ++
        "to investigate payroll processing for October-December period.").toList
      priority := "High".toList, status := "New", origin := "Email"
      typeTag := "Payroll Issue", createdDate := "2024-12-15T10:30:00.000+0000" }
  else if case_number = "00001235" then
    { sfId := "5004W00002ghfgcQAA", caseNumber := "00001235"
      subject := "ACH deposit failed - invalid routing number".toList
      description := ("Customer attempted to set up direct deposit but bank rejected the " ++
        "ACH transfer. Error message indicates routing number 123456789 is invalid. " ++
        "Customer bank is Wells Fargo, account verified.").toList
      priority := "Medium".toList, status := "Open", origin := "Phone"
      typeTag := "Banking Issue", createdDate := "2024-12-16T14:22:00.000+0000" }
  else
    { sfId := "500" ++ case_number, caseNumber := case_number
      subject := ("Case " ++ case_number ++ " - General inquiry").toList
      description := ("This is a sample case " ++ case_number ++
        " for demonstration purposes.").toList
      priority := "Medium".toList, status := "New", origin := "Web"
      typeTag := "General", createdDate := nowIso }

/-- The response of `/analyze-case-by-number`: the analysis plus the
original identifier and the Salesforce summary (here abbreviated to the
source record id). -/
structure RoutedCase where
  analysis : CaseAnalysis
  case_number : String
  salesforce_case_id : String

/-- The `/analyze-case-by-number` handler (src/main.py lines 286-329),
parameterized over the Case Source outcome `sf_case` (`none` models the
source reporting that the case does not exist, which makes `sf_case`
falsy at line 295). The entire body runs inside `try:`, and the
`except Exception` clause catches every exception — including the
`HTTPException(404)` raised at line 296, since FastAPI `HTTPException`
subclasses `Exception` — re-raising it as a 500 with the stringified
original exception embedded in the detail. -/
def analyze_case_by_number (case_number : String) (sf_case : Option SfCase)
    (now : List Char) : Except HttpError RoutedCase :=
  let tryBlock : Except HttpError RoutedCase :=
    match sf_case with
    | none => Except.error ⟨404, "Case " ++ case_number ++ " not found"⟩
    | some sf =>
        let case_data : CaseData :=
          ⟨sf.subject, sf.description, sf.priority,
            if sf.typeTag = "Payroll Issue" ∨ sf.typeTag = "Banking Issue"
              then "Business".toList else "Individual".toList⟩
        let analysis := classify_case case_data now
        Except.ok ⟨analysis, case_number, sf.sfId⟩
  match tryBlock with
  | Except.ok r => Except.ok r
  | Except.error e => Except.error ⟨500, "Analysis failed: " ++ httpExceptionStr e⟩

/-- Claim C6, failing input: when the Case Source reports that case
"00009999" does not exist, the handler does not surface a distinct 404
"case not found" failure — the catch-all except clause rewraps the
`HTTPException(404)` into a generic 500 "Analysis failed" error (and no
classification result is produced, the outcome being an error). -/
theorem claim_C6 :
    analyze_case_by_number "00009999" none "20250101000000".toList =
      Except.error ⟨500, "Analysis failed: 404: Case 00009999 not found"⟩ := by
  rfl

end CaseRouting
